import Mathlib

/-!
Verification of the Artanis-RCS recoil compensation engine against its
natural-language specification.  The Python source is shallowly embedded:
pure numeric code is translated over `ℚ` (exact arithmetic standing in for
IEEE doubles, as the specification's properties are stated mathematically),
stateful services become explicit state-passing functions, and code paths
that raise exceptions return `Option`/sum-like results.
-/

namespace RCS

/-- Embedding of `core/models/recoil_data.py` `RecoilData`: a single recoil
compensation point with horizontal/vertical displacement and a delay in
milliseconds. -/
structure RecoilData where
  dx : ℚ
  dy : ℚ
  delay : ℚ
deriving DecidableEq

/-- Python 3 `round` on a rational, returning an integer: round half to even
(banker's rounding).  Used to embed `int(round(...))` from
`PatternSubdivisionAlgorithm.subdivide` (the `int` conversion is the identity
on the integral result of `round`). -/
def pythonRound (q : ℚ) : ℤ :=
  if q - ⌊q⌋ < 1/2 then ⌊q⌋
  else if 1/2 < q - ⌊q⌋ then ⌊q⌋ + 1
  else if Even ⌊q⌋ then ⌊q⌋ else ⌊q⌋ + 1

/-- Sum of the `dx` components of a pattern. -/
def sumDx (l : List RecoilData) : ℚ := (l.map RecoilData.dx).sum

/-- Sum of the `dy` components of a pattern. -/
def sumDy (l : List RecoilData) : ℚ := (l.map RecoilData.dy).sum

/-- Embedding of `result[idx].dx += 1` (weapon.py line 79): add one to the
`dx` of the element at position `i`, leaving the list unchanged when the
index is out of range. -/
def bumpX : List RecoilData → ℕ → List RecoilData
  | [], _ => []
  | p :: rest, 0 => { p with dx := p.dx + 1 } :: rest
  | p :: rest, i + 1 => p :: bumpX rest i

/-- Embedding of `result[idx].dy += 1` (weapon.py line 86). -/
def bumpY : List RecoilData → ℕ → List RecoilData
  | [], _ => []
  | p :: rest, 0 => { p with dy := p.dy + 1 } :: rest
  | p :: rest, i + 1 => p :: bumpY rest i

/-- Embedding of the X gap-distribution loop of
`PatternSubdivisionAlgorithm.subdivide` (weapon.py lines 76-80):
iterate `k = start, start+1, ...` for `fuel` steps; at each step compute
`idx = base - k - 1` and, if `0 ≤ idx < len(result)`, add one to
`result[idx].dx`, counting how many increments were applied (the count is the
total added to the running `sum_x`).  Returns the updated list and the count. -/
def distAuxX (base : ℕ) : List RecoilData → ℕ → ℕ → List RecoilData × ℕ
  | res, _, 0 => (res, 0)
  | res, k, fuel + 1 =>
    let idx : ℤ := (base : ℤ) - (k : ℤ) - 1
    if 0 ≤ idx ∧ idx < (res.length : ℤ) then
      let r := distAuxX base (bumpX res idx.toNat) (k + 1) fuel
      (r.1, r.2 + 1)
    else
      distAuxX base res (k + 1) fuel

/-- Embedding of the Y gap-distribution loop (weapon.py lines 83-87). -/
def distAuxY (base : ℕ) : List RecoilData → ℕ → ℕ → List RecoilData × ℕ
  | res, _, 0 => (res, 0)
  | res, k, fuel + 1 =>
    let idx : ℤ := (base : ℤ) - (k : ℤ) - 1
    if 0 ≤ idx ∧ idx < (res.length : ℤ) then
      let r := distAuxY base (bumpY res idx.toNat) (k + 1) fuel
      (r.1, r.2 + 1)
    else
      distAuxY base res (k + 1) fuel

/-- `for k in range(gap_x)` over the X distribution loop: a Python `range`
of a possibly non-positive integer is empty, hence the `Int.toNat`. -/
def distributeX (base : ℕ) (gap : ℤ) (res : List RecoilData) : List RecoilData × ℕ :=
  distAuxX base res 0 gap.toNat

/-- `for k in range(gap_y)` over the Y distribution loop. -/
def distributeY (base : ℕ) (gap : ℤ) (res : List RecoilData) : List RecoilData × ℕ :=
  distAuxY base res 0 gap.toNat

/-- Loop state of `PatternSubdivisionAlgorithm.subdivide` (weapon.py lines
41-47): the output list under construction plus the four accumulation
trackers `sum_x`, `sum_y`, `sum_x_original`, `sum_y_original`. -/
structure SubState where
  result : List RecoilData
  sumX : ℚ
  sumY : ℚ
  sumXorig : ℚ
  sumYorig : ℚ
deriving DecidableEq

/-- The sub-point emitted `multiple` times for one raw point (weapon.py
lines 52-61): components are `np.floor(point.dx / multiple)` (`np.floor` is
the mathematical floor) and the delay is carried over unchanged. -/
def subPoint (multiple : ℕ) (point : RecoilData) : RecoilData :=
  ⟨((⌊point.dx / (multiple : ℚ)⌋ : ℤ) : ℚ), ((⌊point.dy / (multiple : ℚ)⌋ : ℤ) : ℚ),
    point.delay⟩

/-- One iteration of the outer `for i, point in enumerate(pattern_to_process)`
loop of `PatternSubdivisionAlgorithm.subdivide` (weapon.py lines 50-87):
append `multiple` copies of the floored sub-point while updating the running
sums, update the original sums, compute the two rounding gaps with
`int(round(...))`, and distribute each gap over the tail of the current
subdivision block. -/
def subdivideStep (multiple : ℕ) (st : SubState) (ip : ℕ × RecoilData) : SubState :=
  let i := ip.1
  let point := ip.2
  let res1 := st.result ++ List.replicate multiple (subPoint multiple point)
  let sumX1 := st.sumX + (multiple : ℚ) * (subPoint multiple point).dx
  let sumY1 := st.sumY + (multiple : ℚ) * (subPoint multiple point).dy
  let sumXorig1 := st.sumXorig + point.dx
  let sumYorig1 := st.sumYorig + point.dy
  let gapX := pythonRound (sumXorig1 - sumX1)
  let gapY := pythonRound (sumYorig1 - sumY1)
  let dX := distributeX (multiple * (i + 1)) gapX res1
  let dY := distributeY (multiple * (i + 1)) gapY dX.1
  { result := dY.1
    sumX := sumX1 + (dX.2 : ℚ)
    sumY := sumY1 + (dY.2 : ℚ)
    sumXorig := sumXorig1
    sumYorig := sumYorig1 }

/-- Embedding of `PatternSubdivisionAlgorithm.subdivide` (weapon.py lines
16-89).  `length` and `multiple` are the (config-validated, positive) Python
ints; `pattern[:length]` is `List.take`.  When the pattern is empty or
`multiple <= 1` the truncated pattern is returned verbatim (an empty pattern
yields `[]`, which coincides with `pattern[:length]`). -/
def subdivide (pattern : List RecoilData) (multiple : ℕ) (length : ℕ) : List RecoilData :=
  if pattern = [] ∨ multiple ≤ 1 then pattern.take length
  else
    (((pattern.take length).enum).foldl (subdivideStep multiple)
      ⟨[], 0, 0, 0, 0⟩).result

/-- Invariant of the subdivision loop after processing `n` raw points: the
output holds `multiple * n` sub-points, the running sums track the actual
component sums of the output, and each original-vs-emitted residue is at most
half a unit (the bound the gap distribution maintains). -/
structure SubInv (multiple n : ℕ) (st : SubState) : Prop where
  len_eq : st.result.length = multiple * n
  sumX_eq : sumDx st.result = st.sumX
  sumY_eq : sumDy st.result = st.sumY
  residueX : |st.sumXorig - st.sumX| ≤ 1/2
  residueY : |st.sumYorig - st.sumY| ≤ 1/2

/-! ## Weapon detection: ammo monitoring (`weapon_detection_service.py`) -/

/-- The fields of `player_state.py` `WeaponState` that the ammo-monitoring
step reads.  `weapon_category == PRIMARY` is collapsed into the boolean
`isPrimary` (the name-table lookup itself is out of scope), `state == "active"`
into `isActiveWeapon`. -/
structure WeaponSnap where
  isPrimary : Bool
  isActiveWeapon : Bool
  ammo_clip : ℤ
deriving DecidableEq

/-- Embedding of `WeaponState.is_rcs_eligible` (player_state.py lines 92-97):
primary category, actively held, and at least one round in the clip. -/
def WeaponSnap.is_rcs_eligible (w : WeaponSnap) : Bool :=
  w.isPrimary && w.isActiveWeapon && decide (0 < w.ammo_clip)

/-- The ammo-tracking part of `WeaponDetectionState`
(weapon_detection_service.py lines 12-21): `last_ammo_count`, initialised and
reset to `-1`. -/
structure AmmoState where
  last_ammo_count : ℤ
deriving DecidableEq

/-- `WeaponDetectionState` after `__init__`/`reset`: `last_ammo_count = -1`. -/
def ammoResetState : AmmoState := ⟨-1⟩

/-- Embedding of `WeaponDetectionState.update_ammo`
(weapon_detection_service.py lines 32-43): record the new count, reporting a
change only when a previous count was observed (`last_ammo_count >= 0`) and
the emptiness of the magazine flipped. -/
def update_ammo (st : AmmoState) (ammo_count : ℤ) : AmmoState × Bool :=
  let current_is_empty := ammo_count = 0
  let previous_was_empty := st.last_ammo_count = 0
  if 0 ≤ st.last_ammo_count ∧ ¬(current_is_empty ↔ previous_was_empty) then
    (⟨ammo_count⟩, true)
  else
    (⟨ammo_count⟩, false)

/-- The two notifications `_process_ammo_monitoring` can trigger on one
snapshot: `_handle_low_ammo_warning` and `_handle_empty_magazine`. -/
structure AmmoEvents where
  lowAmmo : Bool
  emptyMag : Bool
deriving DecidableEq

/-- Embedding of `WeaponDetectionService._process_ammo_monitoring`
(weapon_detection_service.py lines 244-260): no-op without an active weapon;
otherwise update the ammo tracker and fire the low-ammo warning when the
clip is in `(0, low_ammo_threshold]`, the tracker reported a change and the
weapon is RCS-eligible, and the empty-magazine handler when the clip is `0`
and the tracker reported a change. -/
def process_ammo_monitoring (low_ammo_threshold : ℤ) (st : AmmoState)
    (active_weapon : Option WeaponSnap) : AmmoState × AmmoEvents :=
  match active_weapon with
  | none => (st, ⟨false, false⟩)
  | some w =>
    let r := update_ammo st w.ammo_clip
    let low := decide (w.ammo_clip ≤ low_ammo_threshold) && decide (0 < w.ammo_clip) &&
      r.2 && w.is_rcs_eligible
    let emptyFire := decide (w.ammo_clip = 0) && r.2
    (r.1, ⟨low, emptyFire⟩)

/-- Run the ammo-monitoring step over a stream of snapshots, collecting the
notifications fired at each snapshot. -/
def runAmmoMonitoring (low_ammo_threshold : ℤ) :
    AmmoState → List (Option WeaponSnap) → List AmmoEvents
  | _, [] => []
  | st, s :: rest =>
    let r := process_ammo_monitoring low_ammo_threshold st s
    r.2 :: runAmmoMonitoring low_ammo_threshold r.1 rest

/-- An active, primary weapon snapshot with the given clip count. -/
def primarySnap (ammo : ℤ) : Option WeaponSnap := some ⟨true, true, ammo⟩

/-- Spec-level boundary predicate for the amended low-ammo claim: the
snapshot crosses out of the empty state into a non-empty clip at or below
the threshold, with an RCS-eligible weapon. -/
def LowAmmoBoundary (low_ammo_threshold : ℤ) (st : AmmoState) (w : WeaponSnap) : Prop :=
  st.last_ammo_count = 0 ∧ 0 < w.ammo_clip ∧ w.ammo_clip ≤ low_ammo_threshold ∧
    w.is_rcs_eligible = true

/-- Spec-level boundary predicate for the empty-magazine notification: ammo
crosses into the empty state (previously observed non-empty, now zero). -/
def EmptyMagBoundary (st : AmmoState) (w : WeaponSnap) : Prop :=
  0 < st.last_ammo_count ∧ w.ammo_clip = 0

/-! ## Weapon detection: RCS session ownership (`weapon_detection_service.py`,
`recoil_service.py` call sites) -/

/-- Who started the currently running compensation session. -/
inductive SessionOwner
  | auto
  | manual
deriving DecidableEq

/-- Combined state of the weapon-detection state machine and the recoil
session it controls: `enabled`, the `rcs_was_auto_enabled` flag and
`current_weapon` of `WeaponDetectionState`, and the running compensation
session (`RecoilService.active`) tagged with who started it. -/
structure DetectionSysState where
  enabled : Bool
  rcs_was_auto_enabled : Bool
  current_weapon : Option String
  session : Option SessionOwner
deriving DecidableEq

/-- A `stop_compensation` call that actually stopped a running session,
recording whether the weapon-detection state machine issued it
(`_process_rcs_control` or `disable`) and who had started the session. -/
structure StopRecord where
  byStateMachine : Bool
  owner : SessionOwner
deriving DecidableEq

/-- External events driving the detection/session system.  `manualStart` is
`start_compensation(allow_manual_when_auto_enabled=False)` from the UI or the
hotkey (both call sites pass `False`); `hasWeapon` abstracts the
`current_weapon` check of `start_compensation`.  `snapshot` is one accepted
`process_player_state` call: `shouldEnableRcs` is
`player_state.should_enable_rcs`, `patternName` is
`player_state.rcs_weapon_pattern`, and `allowAuto` abstracts
`auto_rcs_control and _should_allow_auto_activation(...)` (startup grace
period). -/
inductive DetectionEvent
  | enable
  | disable
  | manualStart (hasWeapon : Bool)
  | manualStop
  | snapshot (shouldEnableRcs : Bool) (patternName : Option String) (allowAuto : Bool)
deriving DecidableEq

/-- One step of the combined system.  Mirrors
`WeaponDetectionService.enable`/`disable` (lines 85-121),
`_process_weapon_changes` + `_process_rcs_control` (lines 152-223), and the
manual `start_compensation`/`stop_compensation` paths of
`recoil_service.py` (manual start is rejected while `active` or while
detection is enabled, per `_is_manual_activation_blocked`). -/
def detectionStep (st : DetectionSysState) (e : DetectionEvent) :
    DetectionSysState × List StopRecord :=
  match e with
  | .enable =>
    if st.enabled then (st, [])
    else
      ({ st with enabled := true, current_weapon := none, rcs_was_auto_enabled := false }, [])
  | .disable =>
    if st.enabled = false then (st, [])
    else
      match st.session, st.rcs_was_auto_enabled with
      | some o, true =>
        ({ enabled := false, rcs_was_auto_enabled := false, current_weapon := none,
           session := none }, [⟨true, o⟩])
      | _, _ =>
        ({ st with
            enabled := false
            rcs_was_auto_enabled := false
            current_weapon := none }, [])
  | .manualStart hasWeapon =>
    if st.session.isSome then (st, [])
    else if st.enabled then (st, [])
    else if hasWeapon = false then (st, [])
    else ({ st with session := some .manual }, [])
  | .manualStop =>
    match st.session with
    | none => (st, [])
    | some o => ({ st with session := none }, [⟨false, o⟩])
  | .snapshot shouldEnableRcs patternName allowAuto =>
    if st.enabled = false then (st, [])
    else
      let target := if shouldEnableRcs then patternName else none
      let st1 := { st with current_weapon := target }
      if allowAuto then
        if shouldEnableRcs = true ∧ st1.session = none ∧ st1.current_weapon ≠ none then
          ({ st1 with session := some .auto, rcs_was_auto_enabled := true }, [])
        else
          match st1.session with
          | some o =>
            if shouldEnableRcs = false ∧ st1.rcs_was_auto_enabled = true then
              ({ st1 with session := none, rcs_was_auto_enabled := false }, [⟨true, o⟩])
            else (st1, [])
          | none => (st1, [])
      else (st1, [])

/-- Initial state: detection disabled, flag clear, no session. -/
def detectionInit : DetectionSysState := ⟨false, false, none, none⟩

/-- Run a sequence of events, collecting every stop of a running session. -/
def detectionRun : DetectionSysState → List DetectionEvent → DetectionSysState × List StopRecord
  | st, [] => (st, [])
  | st, e :: rest =>
    let r := detectionStep st e
    let r2 := detectionRun r.1 rest
    (r2.1, r.2 ++ r2.2)

/-- Ownership invariant of the detection/session system: whenever the
`rcs_was_auto_enabled` flag is set, detection is enabled and any running
session was started by the state machine itself. -/
def OwnershipInv (st : DetectionSysState) : Prop :=
  st.rcs_was_auto_enabled = true →
    st.enabled = true ∧ ∀ o, st.session = some o → o = SessionOwner.auto

/-! ## RecoilService start/stop/set_weapon (`recoil_service.py`) -/

/-- The `RecoilService` fields read or written by `set_weapon`,
`start_compensation` and `stop_compensation`: the active flag, the shared
current-weapon cell, the two cooperative cancellation events, the weapon
cached for the compensation thread, and the (externally owned) enabled flag
of the weapon-detection service consulted by `_is_manual_activation_blocked`. -/
structure RecoilServiceState where
  active : Bool
  current_weapon : Option String
  stop_event : Bool
  weapon_change_event : Bool
  last_weapon_for_compensation : Option String
  detection_enabled : Bool
deriving DecidableEq

/-- Embedding of `RecoilService._is_manual_activation_blocked`
(recoil_service.py lines 205-214). -/
def is_manual_activation_blocked (s : RecoilServiceState) : Bool :=
  s.detection_enabled

/-- Embedding of `RecoilService.start_compensation` (recoil_service.py lines
107-162): reject when already active, when no weapon is selected and manual
activation is not blocked, or when manual activation is blocked and not
explicitly allowed; otherwise mark active, clear both events, cache the
weapon and start the thread (thread creation is assumed to succeed; its
failure path only returns `False`). -/
def start_compensation (s : RecoilServiceState)
    (allow_manual_when_auto_enabled : Bool) : Bool × RecoilServiceState :=
  if s.active then (false, s)
  else if s.current_weapon = none ∧ is_manual_activation_blocked s = false then (false, s)
  else if allow_manual_when_auto_enabled = false ∧ is_manual_activation_blocked s = true then
    (false, s)
  else
    (true, { s with active := true, stop_event := false, weapon_change_event := false,
                    last_weapon_for_compensation := s.current_weapon })

/-- Embedding of `RecoilService.stop_compensation` (recoil_service.py lines
164-199): return success immediately when idle, otherwise set the stop event
and mark inactive (the bounded thread join is abstracted as succeeding; the
timeout path differs only in the returned boolean). -/
def stop_compensation (s : RecoilServiceState) : Bool × RecoilServiceState :=
  if s.active = false then (true, s)
  else (true, { s with active := false, stop_event := true })

/-- The body of `RecoilService.set_weapon` after validation (recoil_service.py
lines 73-98): no-op success when the weapon is unchanged; otherwise update
the cell, signal the compensation thread when a weapon is selected while
active, and stop compensation when the weapon is deselected while active. -/
def setWeaponUpdate (s : RecoilServiceState) (weapon_name : Option String) :
    Bool × RecoilServiceState :=
  if s.current_weapon = weapon_name then (true, s)
  else
    let s1 := { s with current_weapon := weapon_name }
    let needsStop := s1.active = true ∧ weapon_name = none
    let needsSignal := s1.active = true ∧ weapon_name ≠ none
    let s2 := if needsSignal then { s1 with weapon_change_event := true } else s1
    let s3 := if needsStop then (stop_compensation s2).2 else s2
    (true, s3)

/-- Embedding of `RecoilService.set_weapon` (recoil_service.py lines 65-98):
a non-null weapon name not present in the loaded profiles is rejected before
any state is touched. -/
def set_weapon (profiles : List String) (s : RecoilServiceState)
    (weapon_name : Option String) : Bool × RecoilServiceState :=
  match weapon_name with
  | some n => if n ∈ profiles then setWeaponUpdate s (some n) else (false, s)
  | none => setWeaponUpdate s none

/-! ## TimingService fallback (`timing_service.py`) -/

/-- The two timing strategies of `timing_service.py` `TimingStrategy`. -/
inductive PyTimingStrategy
  | standard
  | high_precision
deriving DecidableEq

/-- The `TimingService` fields set by `__init__`: whether `self.timer` and
`self.precision_sleep` are non-`None`, and the effective strategy. -/
structure TimingServiceState where
  timer : Bool
  precision_sleep : Bool
  strategy : PyTimingStrategy
deriving DecidableEq

/-- Embedding of `TimingService.__init__` (timing_service.py lines 164-181):
construction of the `WindowsTimer` may raise; the exception is caught and the
service falls back to `timer = None`, `precision_sleep = None`,
`strategy = STANDARD`.  Construction itself always succeeds. -/
def timingServiceInit (strategy : PyTimingStrategy) (windowsTimerInitOk : Bool) :
    TimingServiceState :=
  if windowsTimerInitOk then ⟨true, true, strategy⟩
  else ⟨false, false, .standard⟩

/-- Which clock a `get_current_time` call reads. -/
inductive ClockSource
  | highResolution
  | standardClock
deriving DecidableEq

/-- Embedding of `TimingService.get_current_time` (lines 183-188): the
high-resolution counter when `self.timer` is available, otherwise
`time.time()`. -/
def get_current_time_source (s : TimingServiceState) : ClockSource :=
  if s.timer then .highResolution else .standardClock

/-- Which implementation a `sleep` call dispatches to. -/
inductive SleepImpl
  | immediateReturn
  | precisionRelative
  | standardSleep
deriving DecidableEq

/-- Embedding of `TimingService.sleep` (lines 190-199): non-positive
durations return immediately; the precision path needs the high-precision
strategy and a live `precision_sleep`; otherwise `time.sleep`. -/
def sleep_impl (s : TimingServiceState) (duration_ms : ℚ) : SleepImpl :=
  if duration_ms ≤ 0 then .immediateReturn
  else if s.strategy = .high_precision ∧ s.precision_sleep then .precisionRelative
  else .standardSleep

/-- Which implementation a `sleep_until` call dispatches to. -/
inductive SleepUntilImpl
  | precisionAbsolute
  | standardFallback
deriving DecidableEq

/-- Embedding of `TimingService.sleep_until` (lines 201-211). -/
def sleep_until_impl (s : TimingServiceState) : SleepUntilImpl :=
  if s.strategy = .high_precision ∧ s.precision_sleep then .precisionAbsolute
  else .standardFallback

/-! ## WeaponProfile and the compensation sequence (`weapon.py`,
`recoil_service.py`) -/

/-- The attributes of a Python `WeaponProfile` object relevant to the
compensation sequence.  `jitter_timing` and `jitter_movement` are modelled as
`Option ℚ`: `none` means the attribute is absent from the object, so reading
it raises `AttributeError`. -/
structure WeaponProfileState where
  name : String
  display_name : String
  length : ℕ
  multiple : ℕ
  sleep_divider : ℚ
  sleep_suber : ℚ
  game_sensitivity : ℚ
  recoil_pattern : List RecoilData
  calculated_pattern : List RecoilData
  jitter_timing : Option ℚ
  jitter_movement : Option ℚ
deriving DecidableEq

/-- Embedding of `WeaponProfile.__init__` (weapon.py lines 95-132), the
constructor used by `WeaponManager.load_weapon_profiles`
(config_service.py lines 108-117): it sets exactly the listed attributes and
computes `calculated_pattern` via `_calculate_pattern`; it never sets a
`jitter_timing` or `jitter_movement` attribute. -/
def WeaponProfile_init (name : String) (recoil_pattern : List RecoilData)
    (length multiple : ℕ) (sleep_divider sleep_suber game_sensitivity : ℚ)
    (display_name : Option String) : WeaponProfileState :=
  { name := name
    display_name := display_name.getD name
    length := length
    multiple := multiple
    sleep_divider := sleep_divider
    sleep_suber := sleep_suber
    game_sensitivity := game_sensitivity
    recoil_pattern := recoil_pattern
    calculated_pattern :=
      if recoil_pattern = [] then [] else subdivide recoil_pattern multiple length
    jitter_timing := none
    jitter_movement := none }

/-- Python `int(...)` on a rational: truncation toward zero. -/
def pyTrunc (q : ℚ) : ℤ :=
  if 0 ≤ q then ⌊q⌋ else ⌈q⌉

/-- Embedding of the per-point delay computation of
`RecoilService._execute_compensation_sequence` (recoil_service.py lines
398-407), run for each non-final point after the first: the base scheduled
delay `point.delay / sleep_divider - sleep_suber` (milliseconds throughout the
timing pipeline), plus, when `jitter_timing > 0`, the Gaussian sample (drawn
from `N(0, jitter_timing / 3)` in milliseconds) divided by 1000 by the
`timing_jitter / 1000.0` line.  Reading a missing `jitter_timing` attribute
raises (`none`). -/
def pointDelayTime (w : WeaponProfileState) (point : RecoilData) (jitterSample : ℚ) :
    Option ℚ :=
  let base := point.delay / w.sleep_divider - w.sleep_suber
  match w.jitter_timing with
  | none => none
  | some jt => some (if 0 < jt then base + jitterSample / 1000 else base)

/-- How one run of `_execute_compensation_sequence` ends: pattern exhausted
(returns `True`), interrupted by trigger release / stop / weapon change
(returns `False`), or an `AttributeError` escaping to the caller. -/
inductive SeqOutcome
  | completedFully
  | aborted
  | attributeError
deriving DecidableEq

/-- Result of one `_execute_compensation_sequence` run: the integer cursor
deltas emitted via `input_service.mouse_move`, in order, and the outcome. -/
structure SeqResult where
  moves : List (ℤ × ℤ)
  outcome : SeqOutcome
deriving DecidableEq

/-- The `for i, point in enumerate(pattern)` loop of
`_execute_compensation_sequence` (recoil_service.py lines 346-408).
`pressed`, `stopSet` and `changeSet` are oracles for the trigger, stop event
and weapon-change event as observed at index `i`; `jitterSamples` are the
Gaussian draws.  Point 0 only establishes timing.  For later points the
jittered displacement is accumulated into fractional sums, truncated to
integers (fraction carried over) and emitted when non-zero; for non-final
points the scheduled delay is computed, reading `jitter_timing`. -/
def execLoop (w : WeaponProfileState) (total : ℕ) (pressed stopSet changeSet : ℕ → Bool)
    (jitterSamples : ℕ → ℚ) (sx sy : ℚ) :
    List RecoilData → ℕ → ℚ → ℚ → List (ℤ × ℤ) → SeqResult
  | [], _, _, _, moves => ⟨moves, .completedFully⟩
  | point :: rest, i, sumX, sumY, moves =>
    if changeSet i then ⟨moves, .aborted⟩
    else if ¬pressed i ∨ stopSet i then ⟨moves, .aborted⟩
    else if i = 0 then
      execLoop w total pressed stopSet changeSet jitterSamples sx sy rest (i + 1) sumX sumY moves
    else
      let jdx := point.dx * sx
      let jdy := point.dy * sy
      let sumX1 := sumX + jdx
      let sumY1 := sumY + -jdy
      let dxInt := pyTrunc sumX1
      let dyInt := pyTrunc sumY1
      let sumX2 := sumX1 - dxInt
      let sumY2 := sumY1 - dyInt
      let moves1 := if dxInt ≠ 0 ∨ dyInt ≠ 0 then moves ++ [(dxInt, dyInt)] else moves
      if i < total - 1 then
        match pointDelayTime w point (jitterSamples i) with
        | none => ⟨moves1, .attributeError⟩
        | some _ =>
          execLoop w total pressed stopSet changeSet jitterSamples sx sy rest (i + 1)
            sumX2 sumY2 moves1
      else
        execLoop w total pressed stopSet changeSet jitterSamples sx sy rest (i + 1)
          sumX2 sumY2 moves1

/-- Embedding of `RecoilService._execute_compensation_sequence`
(recoil_service.py lines 311-410).  Before any movement is emitted, the
humanization setup at line 335 reads `weapon.jitter_movement`: on a profile
without that attribute this raises `AttributeError` with no moves emitted.
Otherwise the per-session scale factors are the Gaussian draws when
`jitter_movement > 0`, else `1.0`. -/
def execute_compensation_sequence (w : WeaponProfileState) (pattern : List RecoilData)
    (pressed stopSet changeSet : ℕ → Bool) (scaleSampleX scaleSampleY : ℚ)
    (jitterSamples : ℕ → ℚ) : SeqResult :=
  match w.jitter_movement with
  | none => ⟨[], .attributeError⟩
  | some jm =>
    let sx := if 0 < jm then scaleSampleX else 1
    let sy := if 0 < jm then scaleSampleY else 1
    execLoop w pattern.length pressed stopSet changeSet jitterSamples sx sy pattern 0 0 0 []

/-- Result of one iteration of `RecoilService._compensation_loop`
(recoil_service.py lines 263-309): the cursor deltas emitted, and whether an
exception escaped the loop body (crashing the thread and losing
compensation for the host process). -/
structure LoopIterResult where
  moves : List (ℤ × ℤ)
  uncaught : Bool
deriving DecidableEq

/-- One `_compensation_loop` iteration that reached
`_execute_compensation_sequence`: the `try/except Exception` wrapping the
loop body (lines 267-305) catches any exception raised inside — including an
`AttributeError` from the sequence — logs it and continues, so no exception
propagates out of the iteration. -/
def compensation_loop_iteration (w : WeaponProfileState) (pattern : List RecoilData)
    (pressed stopSet changeSet : ℕ → Bool) (scaleSampleX scaleSampleY : ℚ)
    (jitterSamples : ℕ → ℚ) : LoopIterResult :=
  let r := execute_compensation_sequence w pattern pressed stopSet changeSet
    scaleSampleX scaleSampleY jitterSamples
  ⟨r.moves, false⟩

/-! ## Helper lemmas: rounding -/

theorem abs_sub_pythonRound_le (q : ℚ) : |q - (pythonRound q : ℚ)| ≤ 1 / 2 := by
  have h0 : (0 : ℚ) ≤ q - ⌊q⌋ := by
    have := Int.floor_le q
    linarith
  have h1 : q - ⌊q⌋ < 1 := by
    have := Int.lt_floor_add_one q
    linarith
  unfold pythonRound
  split_ifs with hA hB hC
  · rw [abs_le]
    constructor <;> linarith
  · rw [abs_le]
    push_cast
    constructor <;> linarith
  · have he : q - ⌊q⌋ = 1 / 2 := le_antisymm (not_lt.mp hB) (not_lt.mp hA)
    rw [abs_le]
    constructor <;> linarith
  · have he : q - ⌊q⌋ = 1 / 2 := le_antisymm (not_lt.mp hB) (not_lt.mp hA)
    rw [abs_le]
    push_cast
    constructor <;> linarith

theorem pythonRound_nonneg {q : ℚ} (h : -(1 / 2) ≤ q) : 0 ≤ pythonRound q := by
  have hf : (-1 : ℤ) ≤ ⌊q⌋ := by
    have h2 : (⌊(-(1 / 2) : ℚ)⌋ : ℤ) = -1 := by
      rw [Int.floor_eq_iff]
      norm_num
    calc (-1 : ℤ) = ⌊(-(1 / 2) : ℚ)⌋ := h2.symm
      _ ≤ ⌊q⌋ := Int.floor_le_floor h
  unfold pythonRound
  split_ifs with hA hB hC
  · by_contra hneg
    push_neg at hneg
    have hq : ⌊q⌋ = -1 := by omega
    rw [hq] at hA
    push_cast at hA
    have := Int.floor_le q
    rw [hq] at this
    push_cast at this
    linarith
  · omega
  · by_contra hneg
    push_neg at hneg
    have hq : ⌊q⌋ = -1 := by omega
    rw [hq] at hC
    have := Int.even_iff.mp hC
    omega
  · omega

theorem pythonRound_cast_le (q : ℚ) : (pythonRound q : ℚ) ≤ q + 1 / 2 := by
  have := abs_sub_pythonRound_le q
  rw [abs_le] at this
  linarith [this.1]

/-! ## Helper lemmas: component sums, bumps, gap distribution -/

theorem sumDx_nil : sumDx [] = 0 := rfl

theorem sumDy_nil : sumDy [] = 0 := rfl

theorem sumDx_cons (p : RecoilData) (l : List RecoilData) :
    sumDx (p :: l) = p.dx + sumDx l := by
  simp [sumDx]

theorem sumDy_cons (p : RecoilData) (l : List RecoilData) :
    sumDy (p :: l) = p.dy + sumDy l := by
  simp [sumDy]

theorem sumDx_append (a b : List RecoilData) : sumDx (a ++ b) = sumDx a + sumDx b := by
  simp [sumDx]

theorem sumDy_append (a b : List RecoilData) : sumDy (a ++ b) = sumDy a + sumDy b := by
  simp [sumDy]

theorem sumDx_replicate (n : ℕ) (p : RecoilData) :
    sumDx (List.replicate n p) = (n : ℚ) * p.dx := by
  simp [sumDx, List.map_replicate, List.sum_replicate, nsmul_eq_mul]

theorem sumDy_replicate (n : ℕ) (p : RecoilData) :
    sumDy (List.replicate n p) = (n : ℚ) * p.dy := by
  simp [sumDy, List.map_replicate, List.sum_replicate, nsmul_eq_mul]

theorem bumpX_length (l : List RecoilData) (i : ℕ) : (bumpX l i).length = l.length := by
  induction l generalizing i with
  | nil => simp [bumpX]
  | cons p rest ih =>
    cases i with
    | zero => simp [bumpX]
    | succ n => simp [bumpX, ih]

theorem bumpY_length (l : List RecoilData) (i : ℕ) : (bumpY l i).length = l.length := by
  induction l generalizing i with
  | nil => simp [bumpY]
  | cons p rest ih =>
    cases i with
    | zero => simp [bumpY]
    | succ n => simp [bumpY, ih]

theorem sumDx_bumpX {l : List RecoilData} {i : ℕ} (h : i < l.length) :
    sumDx (bumpX l i) = sumDx l + 1 := by
  induction l generalizing i with
  | nil => simp at h
  | cons p rest ih =>
    cases i with
    | zero =>
      simp [bumpX, sumDx_cons]
      ring
    | succ n =>
      simp only [bumpX, sumDx_cons]
      rw [ih (by simpa using h)]
      ring

theorem sumDy_bumpY {l : List RecoilData} {i : ℕ} (h : i < l.length) :
    sumDy (bumpY l i) = sumDy l + 1 := by
  induction l generalizing i with
  | nil => simp at h
  | cons p rest ih =>
    cases i with
    | zero =>
      simp [bumpY, sumDy_cons]
      ring
    | succ n =>
      simp only [bumpY, sumDy_cons]
      rw [ih (by simpa using h)]
      ring

theorem sumDy_bumpX (l : List RecoilData) (i : ℕ) : sumDy (bumpX l i) = sumDy l := by
  induction l generalizing i with
  | nil => simp [bumpX]
  | cons p rest ih =>
    cases i with
    | zero => simp [bumpX, sumDy_cons]
    | succ n => simp [bumpX, sumDy_cons, ih]

theorem sumDx_bumpY (l : List RecoilData) (i : ℕ) : sumDx (bumpY l i) = sumDx l := by
  induction l generalizing i with
  | nil => simp [bumpY]
  | cons p rest ih =>
    cases i with
    | zero => simp [bumpY, sumDx_cons]
    | succ n => simp [bumpY, sumDx_cons, ih]

theorem distAuxX_spec (base : ℕ) :
    ∀ (fuel k : ℕ) (res : List RecoilData), res.length = base → k + fuel ≤ base →
      (distAuxX base res k fuel).2 = fuel ∧
      (distAuxX base res k fuel).1.length = base ∧
      sumDx (distAuxX base res k fuel).1 = sumDx res + fuel ∧
      sumDy (distAuxX base res k fuel).1 = sumDy res := by
  intro fuel
  induction fuel with
  | zero =>
    intro k res hlen _
    simp [distAuxX, hlen]
  | succ n ih =>
    intro k res hlen hle
    have hidx : (0 : ℤ) ≤ (base : ℤ) - (k : ℤ) - 1 ∧
        (base : ℤ) - (k : ℤ) - 1 < (res.length : ℤ) := by
      rw [hlen]
      omega
    have htn : ((base : ℤ) - (k : ℤ) - 1).toNat < res.length := by
      rw [hlen]
      omega
    obtain ⟨hc, hl, hsx, hsy⟩ := ih (k + 1) (bumpX res ((base : ℤ) - (k : ℤ) - 1).toNat)
      (by rw [bumpX_length, hlen]) (by omega)
    simp only [distAuxX, if_pos hidx]
    refine ⟨by simpa using hc, by simpa using hl, ?_, ?_⟩
    · rw [hsx, sumDx_bumpX htn]
      push_cast
      ring
    · rw [hsy, sumDy_bumpX]

theorem distAuxY_spec (base : ℕ) :
    ∀ (fuel k : ℕ) (res : List RecoilData), res.length = base → k + fuel ≤ base →
      (distAuxY base res k fuel).2 = fuel ∧
      (distAuxY base res k fuel).1.length = base ∧
      sumDy (distAuxY base res k fuel).1 = sumDy res + fuel ∧
      sumDx (distAuxY base res k fuel).1 = sumDx res := by
  intro fuel
  induction fuel with
  | zero =>
    intro k res hlen _
    simp [distAuxY, hlen]
  | succ n ih =>
    intro k res hlen hle
    have hidx : (0 : ℤ) ≤ (base : ℤ) - (k : ℤ) - 1 ∧
        (base : ℤ) - (k : ℤ) - 1 < (res.length : ℤ) := by
      rw [hlen]
      omega
    have htn : ((base : ℤ) - (k : ℤ) - 1).toNat < res.length := by
      rw [hlen]
      omega
    obtain ⟨hc, hl, hsy, hsx⟩ := ih (k + 1) (bumpY res ((base : ℤ) - (k : ℤ) - 1).toNat)
      (by rw [bumpY_length, hlen]) (by omega)
    simp only [distAuxY, if_pos hidx]
    refine ⟨by simpa using hc, by simpa using hl, ?_, ?_⟩
    · rw [hsy, sumDy_bumpY htn]
      push_cast
      ring
    · rw [hsx, sumDx_bumpY]

/-- The division deficit of one raw component: flooring `x / multiple` and
re-scaling loses between `0` (inclusive) and `multiple` (exclusive). -/
theorem floor_scale_deficit (x : ℚ) {m : ℕ} (hm : 1 ≤ m) :
    0 ≤ x - (m : ℚ) * ((⌊x / (m : ℚ)⌋ : ℤ) : ℚ) ∧
      x - (m : ℚ) * ((⌊x / (m : ℚ)⌋ : ℤ) : ℚ) < (m : ℚ) := by
  have hm0 : (0 : ℚ) < (m : ℚ) := by
    exact_mod_cast Nat.pos_of_ne_zero (by omega)
  constructor
  · have h := Int.floor_le (x / (m : ℚ))
    have h2 : ((⌊x / (m : ℚ)⌋ : ℤ) : ℚ) * (m : ℚ) ≤ x := by
      rw [← le_div_iff₀ hm0]
      exact h
    linarith
  · have h := Int.lt_floor_add_one (x / (m : ℚ))
    have h2 : x < (((⌊x / (m : ℚ)⌋ : ℤ) : ℚ) + 1) * (m : ℚ) := by
      rw [← div_lt_iff₀ hm0]
      exact h
    nlinarith

/-- One subdivision iteration preserves the loop invariant: every gap
increment lands inside the current block (so none is dropped by the index
check), the tracked sums stay equal to the actual output sums, and the
residue returns to within half a unit after distribution. -/
theorem subInv_step {m n : ℕ} (hm : 2 ≤ m) {st : SubState} (p : RecoilData)
    (h : SubInv m n st) : SubInv m (n + 1) (subdivideStep m st (n, p)) := by
  obtain ⟨hlen, hsx, hsy, hrx, hry⟩ := h
  have hm1 : 1 ≤ m := by omega
  have hbase : m ≤ m * (n + 1) := by nlinarith
  obtain ⟨hdx0, hdx1⟩ := floor_scale_deficit p.dx hm1
  obtain ⟨hdy0, hdy1⟩ := floor_scale_deficit p.dy hm1
  rw [abs_le] at hrx hry
  simp only [subdivideStep, distributeX, distributeY]
  set sp := subPoint m p with hsp
  set res1 := st.result ++ List.replicate m sp with hres1def
  set vX := st.sumXorig + p.dx - (st.sumX + (m : ℚ) * sp.dx) with hvXdef
  set vY := st.sumYorig + p.dy - (st.sumY + (m : ℚ) * sp.dy) with hvYdef
  set gX := pythonRound vX with hgXdef
  set gY := pythonRound vY with hgYdef
  have hspdx : sp.dx = ((⌊p.dx / (m : ℚ)⌋ : ℤ) : ℚ) := rfl
  have hspdy : sp.dy = ((⌊p.dy / (m : ℚ)⌋ : ℤ) : ℚ) := rfl
  have hres1len : res1.length = m * (n + 1) := by
    rw [hres1def, List.length_append, List.length_replicate, hlen]
    ring
  have hres1sx : sumDx res1 = st.sumX + (m : ℚ) * sp.dx := by
    rw [hres1def, sumDx_append, sumDx_replicate, hsx]
  have hres1sy : sumDy res1 = st.sumY + (m : ℚ) * sp.dy := by
    rw [hres1def, sumDy_append, sumDy_replicate, hsy]
  have hvX1 : -(1 / 2) ≤ vX := by
    rw [hvXdef, hspdx]
    linarith [hrx.1]
  have hvX2 : vX < (m : ℚ) + 1 / 2 := by
    rw [hvXdef, hspdx]
    linarith [hrx.2]
  have hvY1 : -(1 / 2) ≤ vY := by
    rw [hvYdef, hspdy]
    linarith [hry.1]
  have hvY2 : vY < (m : ℚ) + 1 / 2 := by
    rw [hvYdef, hspdy]
    linarith [hry.2]
  have hgX0 : 0 ≤ gX := by
    rw [hgXdef]
    exact pythonRound_nonneg hvX1
  have hgY0 : 0 ≤ gY := by
    rw [hgYdef]
    exact pythonRound_nonneg hvY1
  have hgXm : gX ≤ (m : ℤ) := by
    have hc : (gX : ℚ) ≤ vX + 1 / 2 := by
      rw [hgXdef]
      exact pythonRound_cast_le vX
    have h2 : (gX : ℚ) < (m : ℚ) + 1 := by linarith
    have h3 : gX < (m : ℤ) + 1 := by exact_mod_cast h2
    omega
  have hgYm : gY ≤ (m : ℤ) := by
    have hc : (gY : ℚ) ≤ vY + 1 / 2 := by
      rw [hgYdef]
      exact pythonRound_cast_le vY
    have h2 : (gY : ℚ) < (m : ℚ) + 1 := by linarith
    have h3 : gY < (m : ℤ) + 1 := by exact_mod_cast h2
    omega
  have hfX : 0 + gX.toNat ≤ m * (n + 1) := by
    simpa using le_trans (Int.toNat_le.mpr hgXm) hbase
  have hfY : 0 + gY.toNat ≤ m * (n + 1) := by
    simpa using le_trans (Int.toNat_le.mpr hgYm) hbase
  obtain ⟨hc1, hl1, hsx1, hsy1⟩ :=
    distAuxX_spec (m * (n + 1)) gX.toNat 0 res1 hres1len hfX
  obtain ⟨hc2, hl2, hsy2, hsx2⟩ :=
    distAuxY_spec (m * (n + 1)) gY.toNat 0
      (distAuxX (m * (n + 1)) res1 0 gX.toNat).1 hl1 hfY
  have hcastX : ((gX.toNat : ℕ) : ℚ) = (gX : ℚ) := by
    exact_mod_cast Int.toNat_of_nonneg hgX0
  have hcastY : ((gY.toNat : ℕ) : ℚ) = (gY : ℚ) := by
    exact_mod_cast Int.toNat_of_nonneg hgY0
  refine ⟨?_, ?_, ?_, ?_, ?_⟩
  · exact hl2
  · rw [hsx2, hsx1, hres1sx, hc1]
  · rw [hsy2, hsy1, hres1sy, hc2]
  · rw [hc1, hcastX]
    have habs : |vX - (gX : ℚ)| ≤ 1 / 2 := by
      rw [hgXdef]
      exact abs_sub_pythonRound_le vX
    have heq : st.sumXorig + p.dx - (st.sumX + (m : ℚ) * sp.dx + (gX : ℚ)) =
        vX - (gX : ℚ) := by
      rw [hvXdef]
      ring
    rw [heq]
    exact habs
  · rw [hc2, hcastY]
    have habs : |vY - (gY : ℚ)| ≤ 1 / 2 := by
      rw [hgYdef]
      exact abs_sub_pythonRound_le vY
    have heq : st.sumYorig + p.dy - (st.sumY + (m : ℚ) * sp.dy + (gY : ℚ)) =
        vY - (gY : ℚ) := by
      rw [hvYdef]
      ring
    rw [heq]
    exact habs

theorem subInv_fold {m : ℕ} (hm : 2 ≤ m) :
    ∀ (l : List RecoilData) (n : ℕ) (st : SubState), SubInv m n st →
      SubInv m (n + l.length) ((l.enumFrom n).foldl (subdivideStep m) st) := by
  intro l
  induction l with
  | nil =>
    intro n st h
    simpa using h
  | cons p rest ih =>
    intro n st h
    have h1 := subInv_step hm p h
    have h2 := ih (n + 1) _ h1
    simp only [List.enumFrom, List.foldl, List.length_cons]
    have : n + (rest.length + 1) = n + 1 + rest.length := by omega
    rw [this]
    exact h2

theorem subdivideStep_sumXorig (m : ℕ) (st : SubState) (ip : ℕ × RecoilData) :
    (subdivideStep m st ip).sumXorig = st.sumXorig + ip.2.dx := rfl

theorem subdivideStep_sumYorig (m : ℕ) (st : SubState) (ip : ℕ × RecoilData) :
    (subdivideStep m st ip).sumYorig = st.sumYorig + ip.2.dy := rfl

theorem fold_sumXorig (m : ℕ) :
    ∀ (l : List RecoilData) (n : ℕ) (st : SubState),
      ((l.enumFrom n).foldl (subdivideStep m) st).sumXorig = st.sumXorig + sumDx l := by
  intro l
  induction l with
  | nil =>
    intro n st
    simp [sumDx_nil]
  | cons p rest ih =>
    intro n st
    simp only [List.enumFrom, List.foldl]
    rw [ih (n + 1), subdivideStep_sumXorig, sumDx_cons]
    ring

theorem fold_sumYorig (m : ℕ) :
    ∀ (l : List RecoilData) (n : ℕ) (st : SubState),
      ((l.enumFrom n).foldl (subdivideStep m) st).sumYorig = st.sumYorig + sumDy l := by
  intro l
  induction l with
  | nil =>
    intro n st
    simp [sumDy_nil]
  | cons p rest ih =>
    intro n st
    simp only [List.enumFrom, List.foldl]
    rw [ih (n + 1), subdivideStep_sumYorig, sumDy_cons]
    ring

theorem subInv_initial (m : ℕ) : SubInv m 0 ⟨[], 0, 0, 0, 0⟩ := by
  refine ⟨by simp, rfl, rfl, by norm_num, by norm_num⟩

theorem enum_eq_enumFrom (l : List RecoilData) : l.enum = l.enumFrom 0 := rfl

/-- Claim C1: for every pattern, every multiple >= 1 and every length, the
subdivided pattern returned by `subdivide(pattern, multiple, length)`
satisfies: the sum of `dx` over the output equals the sum of `dx` over
`pattern[:length]`, and likewise for `dy`, within 1 unit of the final
rounding (the exact-arithmetic residue is in fact at most 1/2). -/
theorem C1_subdivision_sum_preservation (pattern : List RecoilData)
    (multiple length : ℕ) (_hm : 1 ≤ multiple) :
    |sumDx (subdivide pattern multiple length) - sumDx (pattern.take length)| ≤ 1 ∧
    |sumDy (subdivide pattern multiple length) - sumDy (pattern.take length)| ≤ 1 := by
  unfold subdivide
  split_ifs with hcase
  · simp
  · push_neg at hcase
    have hm2 : 2 ≤ multiple := by omega
    rw [enum_eq_enumFrom]
    obtain ⟨_, hsx, hsy, hrx, hry⟩ :=
      subInv_fold hm2 (pattern.take length) 0 ⟨[], 0, 0, 0, 0⟩ (subInv_initial multiple)
    have hox := fold_sumXorig multiple (pattern.take length) 0 ⟨[], 0, 0, 0, 0⟩
    have hoy := fold_sumYorig multiple (pattern.take length) 0 ⟨[], 0, 0, 0, 0⟩
    constructor
    · rw [hsx]
      have h1 : sumDx (pattern.take length) =
          (((pattern.take length).enumFrom 0).foldl (subdivideStep multiple)
            ⟨[], 0, 0, 0, 0⟩).sumXorig := by
        rw [hox]
        ring
      rw [h1]
      calc |_ - _| = |_ - _| := abs_sub_comm _ _
        _ ≤ 1 / 2 := hrx
        _ ≤ 1 := by norm_num
    · rw [hsy]
      have h1 : sumDy (pattern.take length) =
          (((pattern.take length).enumFrom 0).foldl (subdivideStep multiple)
            ⟨[], 0, 0, 0, 0⟩).sumYorig := by
        rw [hoy]
        ring
      rw [h1]
      calc |_ - _| = |_ - _| := abs_sub_comm _ _
        _ ≤ 1 / 2 := hry
        _ ≤ 1 := by norm_num

theorem C1_witness :
    1 ≤ 4 ∧
    (|sumDx (subdivide [⟨10, 20, 15⟩, ⟨-7, 3, 12⟩] 4 30) -
        sumDx (([⟨10, 20, 15⟩, ⟨-7, 3, 12⟩] : List RecoilData).take 30)| ≤ 1 ∧
      |sumDy (subdivide [⟨10, 20, 15⟩, ⟨-7, 3, 12⟩] 4 30) -
        sumDy (([⟨10, 20, 15⟩, ⟨-7, 3, 12⟩] : List RecoilData).take 30)| ≤ 1) :=
  ⟨by decide, C1_subdivision_sum_preservation [⟨10, 20, 15⟩, ⟨-7, 3, 12⟩] 4 30 (by decide)⟩

/-- Claim C3: for every pattern and length, if `multiple <= 1` or the pattern
is empty then `subdivide(pattern, multiple, length)` returns `pattern[:length]`
verbatim; and for every `multiple >= 2` the length of the returned pattern
equals `min(length, len(pattern)) * multiple`. -/
theorem C3_subdivision_length (pattern : List RecoilData) (multiple length : ℕ) :
    ((multiple ≤ 1 ∨ pattern = []) →
      subdivide pattern multiple length = pattern.take length) ∧
    (2 ≤ multiple →
      (subdivide pattern multiple length).length = min length pattern.length * multiple) := by
  constructor
  · intro h
    unfold subdivide
    rw [if_pos (Or.symm h)]
  · intro hm
    by_cases hp : pattern = []
    · subst hp
      simp [subdivide]
    · unfold subdivide
      rw [if_neg (by push_neg; exact ⟨hp, by omega⟩)]
      rw [enum_eq_enumFrom]
      obtain ⟨hlen, _, _, _, _⟩ :=
        subInv_fold hm (pattern.take length) 0 ⟨[], 0, 0, 0, 0⟩ (subInv_initial multiple)
      rw [hlen, List.length_take]
      ring

theorem C3_witness :
    ((1 ≤ 1 ∨ ([⟨10, 20, 15⟩] : List RecoilData) = []) ∧
      subdivide [⟨10, 20, 15⟩] 1 5 = ([⟨10, 20, 15⟩] : List RecoilData).take 5) ∧
    (2 ≤ 4 ∧
      (subdivide [⟨10, 20, 15⟩] 4 30).length = min 30 1 * 4) :=
  ⟨⟨Or.inl (by decide), (C3_subdivision_length [⟨10, 20, 15⟩] 1 5).1 (Or.inl (by decide))⟩,
   ⟨by decide, (C3_subdivision_length [⟨10, 20, 15⟩] 4 30).2 (by decide)⟩⟩

theorem pythonRound_intCast (z : ℤ) : pythonRound ((z : ℤ) : ℚ) = z := by
  unfold pythonRound
  rw [Int.floor_intCast]
  norm_num

theorem pythonRound_two : pythonRound (2 : ℚ) = 2 := by
  rw [show (2 : ℚ) = ((2 : ℤ) : ℚ) by norm_num]
  exact pythonRound_intCast 2

theorem pythonRound_zero : pythonRound (0 : ℚ) = 0 := by
  rw [show (0 : ℚ) = ((0 : ℤ) : ℚ) by norm_num]
  exact pythonRound_intCast 0

theorem floor_ten_div_four : (⌊(10 : ℚ) / (4 : ℚ)⌋ : ℤ) = 2 := by
  rw [Int.floor_eq_iff]
  norm_num

theorem floor_twenty_div_four : (⌊(20 : ℚ) / (4 : ℚ)⌋ : ℤ) = 5 := by
  rw [Int.floor_eq_iff]
  norm_num

theorem subPoint_example : subPoint 4 ⟨10, 20, 15⟩ = ⟨2, 5, 15⟩ := by
  unfold subPoint
  rw [show (((4 : ℕ) : ℚ)) = (4 : ℚ) by norm_num]
  rw [floor_ten_div_four, floor_twenty_div_four]
  norm_num

/-- Evaluation of the subdivision algorithm on the spec §8 example: raw
pattern `[(10, 20, 15)]` with `multiple = 4` and any `length >= 1`.  The
floored sub-point is `(2, 5, 15)`; the X gap is `round(10 - 8) = 2` and is
distributed to the last two sub-points, giving `dx = [2, 2, 3, 3]`; the Y
gap is `0`. -/
theorem subdivide_example (len : ℕ) (hlen : 1 ≤ len) :
    subdivide [⟨10, 20, 15⟩] 4 len =
      [⟨2, 5, 15⟩, ⟨2, 5, 15⟩, ⟨3, 5, 15⟩, ⟨3, 5, 15⟩] := by
  have htake : ([⟨10, 20, 15⟩] : List RecoilData).take len = [⟨10, 20, 15⟩] :=
    List.take_of_length_le (by simpa using hlen)
  unfold subdivide
  rw [if_neg (by norm_num), htake, enum_eq_enumFrom]
  simp only [List.enumFrom, List.foldl, subdivideStep, distributeX, distributeY,
    subPoint_example]
  norm_num [pythonRound_two, pythonRound_zero]
  simp only [distAuxX, distAuxY]
  norm_num [bumpX]

/-- Claim C2 counterexample: on the raw pattern `[(10, 20, 15)]` with
`multiple = 4` (at `length = 30`, the profile default), the `dx` values of
the subdivided pattern are NOT `[2, 2, 2, 4]`: the gap of `2` is distributed
one unit each to the last two sub-points, giving `[2, 2, 3, 3]`. -/
theorem C2_counterexample :
    (subdivide [⟨10, 20, 15⟩] 4 30).map RecoilData.dx ≠ [2, 2, 2, 4] := by
  rw [subdivide_example 30 (by norm_num)]
  intro h
  simp only [List.map, List.cons.injEq] at h
  have h3 : (3 : ℚ) = 2 := h.2.2.1
  norm_num at h3

/-- Claim C2 (amended): for the single-point raw pattern
`[(dx=10, dy=20, delayMs=15)]` with `multiple = 4` and `length >= 1`,
`subdivide` returns exactly 4 points, each with `delayMs = 15`, whose `dx`
values are `[2, 2, 3, 3]`: flooring gives `2` for every sub-point and the
remaining gap of `2` is redistributed one unit each onto the last two
sub-points (not `4` onto the last point alone). -/
theorem C2_amended_example (len : ℕ) (hlen : 1 ≤ len) :
    (subdivide [⟨10, 20, 15⟩] 4 len).length = 4 ∧
    (∀ q ∈ subdivide [⟨10, 20, 15⟩] 4 len, q.delay = 15) ∧
    (subdivide [⟨10, 20, 15⟩] 4 len).map RecoilData.dx = [2, 2, 3, 3] := by
  rw [subdivide_example len hlen]
  refine ⟨rfl, ?_, rfl⟩
  intro q hq
  simp only [List.mem_cons, List.not_mem_nil, or_false] at hq
  rcases hq with h | h | h | h <;> subst h <;> rfl

theorem C2_witness :
    1 ≤ 30 ∧
    ((subdivide [⟨10, 20, 15⟩] 4 30).length = 4 ∧
      (∀ q ∈ subdivide [⟨10, 20, 15⟩] 4 30, q.delay = 15) ∧
      (subdivide [⟨10, 20, 15⟩] 4 30).map RecoilData.dx = [2, 2, 3, 3]) :=
  ⟨by decide, C2_amended_example 30 (by decide)⟩

/-! ## C4: ammo-monitoring boundaries -/

theorem process_ammo_state (thr : ℤ) (st : AmmoState) (a : ℤ) :
    (process_ammo_monitoring thr st (primarySnap a)).1 = ⟨a⟩ := by
  unfold process_ammo_monitoring primarySnap update_ammo
  dsimp only
  split_ifs <;> rfl

theorem lowAmmo_char (thr : ℤ) (st : AmmoState) (w : WeaponSnap) :
    (process_ammo_monitoring thr st (some w)).2.lowAmmo = true ↔
      LowAmmoBoundary thr st w := by
  unfold process_ammo_monitoring update_ammo LowAmmoBoundary
  dsimp only
  by_cases hc : 0 ≤ st.last_ammo_count ∧ ¬(w.ammo_clip = 0 ↔ st.last_ammo_count = 0)
  · rw [if_pos hc]
    simp only [Bool.and_eq_true, decide_eq_true_eq]
    constructor
    · rintro ⟨⟨⟨hthr, hpos⟩, -⟩, helig⟩
      have hne : ¬w.ammo_clip = 0 := by omega
      have hlast : st.last_ammo_count = 0 := by tauto
      exact ⟨hlast, hpos, hthr, helig⟩
    · rintro ⟨hlast, hpos, hthr, helig⟩
      exact ⟨⟨⟨hthr, hpos⟩, trivial⟩, helig⟩
  · rw [if_neg hc]
    simp only [Bool.and_false, Bool.false_and, Bool.false_eq_true, false_iff]
    rintro ⟨hlast, hpos, hthr, helig⟩
    exact hc ⟨by omega, by intro hiff; omega⟩

theorem emptyMag_char (thr : ℤ) (st : AmmoState) (w : WeaponSnap) :
    (process_ammo_monitoring thr st (some w)).2.emptyMag = true ↔
      EmptyMagBoundary st w := by
  unfold process_ammo_monitoring update_ammo EmptyMagBoundary
  dsimp only
  by_cases hc : 0 ≤ st.last_ammo_count ∧ ¬(w.ammo_clip = 0 ↔ st.last_ammo_count = 0)
  · rw [if_pos hc]
    simp only [Bool.and_eq_true, decide_eq_true_eq, Bool.and_true]
    constructor
    · intro hz
      refine ⟨?_, hz⟩
      obtain ⟨h0, hne⟩ := hc
      have : ¬st.last_ammo_count = 0 := by tauto
      omega
    · rintro ⟨-, hz⟩
      exact hz
  · rw [if_neg hc]
    simp only [Bool.and_false, Bool.false_eq_true, false_iff]
    rintro ⟨hlast, hz⟩
    exact hc ⟨by omega, by intro hiff; omega⟩

theorem no_low_fire_of_positive (thr : ℤ) :
    ∀ (ammo : List ℤ) (st : AmmoState), st.last_ammo_count ≠ 0 → (∀ a ∈ ammo, 0 < a) →
      ∀ e ∈ runAmmoMonitoring thr st (ammo.map primarySnap), e.lowAmmo = false := by
  intro ammo
  induction ammo with
  | nil =>
    intro st h1 h2 e he
    simp [runAmmoMonitoring] at he
  | cons a rest ih =>
    intro st h1 h2 e he
    have ha : 0 < a := h2 a (List.mem_cons_self a rest)
    simp only [List.map_cons, runAmmoMonitoring, List.mem_cons] at he
    rcases he with h | h
    · subst h
      have := lowAmmo_char thr st ⟨true, true, a⟩
      unfold LowAmmoBoundary at this
      rcases hb : (process_ammo_monitoring thr st (primarySnap a)).2.lowAmmo with _ | _
      · rfl
      · exact absurd (this.mp hb).1 h1
    · refine ih (process_ammo_monitoring thr st (primarySnap a)).1 ?_
        (fun b hb => h2 b (List.mem_cons_of_mem a hb)) e h
      rw [process_ammo_state]
      intro hz
      have haz : a = 0 := hz
      omega

/-- Claim C4 counterexample: with `low_ammo_threshold = 5` and snapshots of an
eligible primary weapon whose ammo oscillates `6, 5, 6, 5` — crossing below
the threshold while non-empty at snapshots 2 and 4 — the low-ammo
notification never fires (the code only reacts to empty/non-empty
transitions), not once per crossing as claimed. -/
theorem C4_counterexample :
    (runAmmoMonitoring 5 ammoResetState
        [primarySnap 6, primarySnap 5, primarySnap 6, primarySnap 5]).map
      AmmoEvents.lowAmmo = [false, false, false, false] := by
  decide

/-- Claim C4 (amended): in the weapon detection step, the empty-magazine
notification fires exactly on the boundary snapshots where ammo crosses into
the empty state; the low-ammo notification fires exactly on the boundary
snapshots where ammo crosses OUT of the empty state to a non-empty value at
or below the configured threshold with an RCS-eligible weapon — not when
ammo crosses below the threshold among non-empty values; in particular, a
stream whose ammo stays positive while oscillating around the threshold
never fires the low-ammo notification. -/
theorem C4_amended_boundaries :
    (∀ (thr : ℤ) (st : AmmoState) (w : WeaponSnap),
      ((process_ammo_monitoring thr st (some w)).2.lowAmmo = true ↔
        LowAmmoBoundary thr st w) ∧
      ((process_ammo_monitoring thr st (some w)).2.emptyMag = true ↔
        EmptyMagBoundary st w)) ∧
    (∀ (thr : ℤ) (ammo : List ℤ), (∀ a ∈ ammo, 0 < a) →
      ∀ e ∈ runAmmoMonitoring thr ammoResetState (ammo.map primarySnap),
        e.lowAmmo = false) :=
  ⟨fun thr st w => ⟨lowAmmo_char thr st w, emptyMag_char thr st w⟩,
   fun thr ammo h => no_low_fire_of_positive thr ammo ammoResetState (by norm_num [ammoResetState]) h⟩

theorem C4_witness :
    (process_ammo_monitoring 5 ⟨0⟩ (some ⟨true, true, 3⟩)).2.lowAmmo = true :=
  ((C4_amended_boundaries.1 5 ⟨0⟩ ⟨true, true, 3⟩).1).mpr
    (by norm_num [LowAmmoBoundary, WeaponSnap.is_rcs_eligible])

/-! ## C5: auto-start/stop ownership -/

theorem detectionStep_inv {st : DetectionSysState} (h : OwnershipInv st) (e : DetectionEvent) :
    OwnershipInv (detectionStep st e).1 ∧
      ∀ r ∈ (detectionStep st e).2, r.byStateMachine = true →
        r.owner = SessionOwner.auto := by
  obtain ⟨en, fl, cw, se⟩ := st
  unfold OwnershipInv at h ⊢
  cases e with
  | enable =>
    rcases en with _ | _ <;> rcases fl with _ | _ <;> rcases se with _ | o <;>
      simp_all [detectionStep]
  | disable =>
    rcases en with _ | _ <;> rcases fl with _ | _ <;> rcases se with _ | o <;>
      simp_all [detectionStep]
  | manualStart hw =>
    rcases hw with _ | _ <;> rcases en with _ | _ <;> rcases fl with _ | _ <;>
      rcases se with _ | o <;> simp_all [detectionStep]
  | manualStop =>
    rcases en with _ | _ <;> rcases fl with _ | _ <;> rcases se with _ | o <;>
      simp_all [detectionStep]
  | snapshot sE pN aA =>
    rcases sE with _ | _ <;> rcases aA with _ | _ <;> rcases pN with _ | wn <;>
      rcases en with _ | _ <;> rcases fl with _ | _ <;> rcases se with _ | o <;>
      simp_all [detectionStep]

theorem detectionRun_stops :
    ∀ (evs : List DetectionEvent) (st : DetectionSysState), OwnershipInv st →
      ∀ r ∈ (detectionRun st evs).2, r.byStateMachine = true →
        r.owner = SessionOwner.auto := by
  intro evs
  induction evs with
  | nil =>
    intro st h r hr
    simp [detectionRun] at hr
  | cons e rest ih =>
    intro st h r hr
    simp only [detectionRun, List.mem_append] at hr
    obtain ⟨h1, h2⟩ := detectionStep_inv h e
    rcases hr with hr | hr
    · exact h2 r hr
    · exact ih (detectionStep st e).1 h1 r hr

/-- Claim C5: in every state reachable by any sequence of enable/disable,
manual start/stop and snapshot-processing events, a stop of the compensation
session is issued by the weapon detection state machine only when the
auto-started flag is set, and therefore only for sessions the state machine
itself auto-started; a manually started session is never stopped by the
state machine, including across a disable followed by re-enable. -/
theorem C5_auto_stop_ownership (evs : List DetectionEvent) :
    ∀ r ∈ (detectionRun detectionInit evs).2, r.byStateMachine = true →
      r.owner = SessionOwner.auto :=
  detectionRun_stops evs detectionInit (by intro hflag; simp [detectionInit] at hflag)

theorem C5_witness :
    ((⟨true, SessionOwner.auto⟩ : StopRecord) ∈ (detectionRun detectionInit
        [DetectionEvent.enable, DetectionEvent.snapshot true (some "ak47") true,
          DetectionEvent.snapshot false none true]).2 ∧
      (true = true)) ∧
    (⟨true, SessionOwner.auto⟩ : StopRecord).owner = SessionOwner.auto :=
  ⟨⟨by simp [detectionRun, detectionStep, detectionInit], rfl⟩,
    C5_auto_stop_ownership
      [DetectionEvent.enable, DetectionEvent.snapshot true (some "ak47") true,
        DetectionEvent.snapshot false none true]
      ⟨true, SessionOwner.auto⟩
      (by simp [detectionRun, detectionStep, detectionInit]) rfl⟩

/-! ## C7, C8, C10: service-level error handling -/

/-- Claim C7: `start_compensation` requested while a session is already
active returns failure without starting a second session (the state is
returned unchanged), and `stop_compensation` requested while no session is
active returns success (state unchanged); both paths return normally rather
than raising. -/
theorem C7_contended_start_stop (s : RecoilServiceState) (allow : Bool) :
    (s.active = true → start_compensation s allow = (false, s)) ∧
    (s.active = false → stop_compensation s = (true, s)) := by
  constructor
  · intro h
    unfold start_compensation
    rw [if_pos h]
  · intro h
    unfold stop_compensation
    rw [if_pos h]

theorem C7_witness :
    ((⟨true, some "ak47", false, false, none, false⟩ : RecoilServiceState).active = true ∧
      start_compensation ⟨true, some "ak47", false, false, none, false⟩ false =
        (false, ⟨true, some "ak47", false, false, none, false⟩)) ∧
    ((⟨false, none, false, false, none, false⟩ : RecoilServiceState).active = false ∧
      stop_compensation ⟨false, none, false, false, none, false⟩ =
        (true, ⟨false, none, false, false, none, false⟩)) :=
  ⟨⟨rfl, (C7_contended_start_stop ⟨true, some "ak47", false, false, none, false⟩ false).1 rfl⟩,
   ⟨rfl, (C7_contended_start_stop ⟨false, none, false, false, none, false⟩ false).2 rfl⟩⟩

/-- Claim C8: if initialization of the high-resolution clock fails, the
timing service still constructs successfully (the exception is caught inside
`__init__`), and every subsequent `get_current_time` / `sleep` /
`sleep_until` call uses the lower-precision standard clock and standard
sleep instead of raising. -/
theorem C8_timing_fallback (requested : PyTimingStrategy) :
    timingServiceInit requested false = ⟨false, false, .standard⟩ ∧
    get_current_time_source (timingServiceInit requested false) = .standardClock ∧
    (∀ d : ℚ, sleep_impl (timingServiceInit requested false) d =
      if d ≤ 0 then .immediateReturn else .standardSleep) ∧
    sleep_until_impl (timingServiceInit requested false) = .standardFallback := by
  refine ⟨rfl, rfl, ?_, rfl⟩
  intro d
  by_cases hd : d ≤ 0 <;> simp [sleep_impl, timingServiceInit, hd]

/-- Claim C10: for every non-null weapon name that is not among the loaded
weapon profiles, `set_weapon(name)` returns `False` and leaves the current
weapon, the active flag and the cancellation events unchanged — the whole
state is returned untouched. -/
theorem C10_set_weapon_unknown_atomic (profiles : List String)
    (s : RecoilServiceState) (n : String) (h : n ∉ profiles) :
    set_weapon profiles s (some n) = (false, s) := by
  unfold set_weapon
  simp [h]

theorem C10_witness :
    "ak47" ∉ (["m4a4", "famas"] : List String) ∧
    set_weapon ["m4a4", "famas"] ⟨false, none, false, false, none, false⟩ (some "ak47") =
      (false, ⟨false, none, false, false, none, false⟩) :=
  ⟨by decide,
   C10_set_weapon_unknown_atomic ["m4a4", "famas"]
     ⟨false, none, false, false, none, false⟩ "ak47" (by decide)⟩

/-! ## C9: missing jitter attributes, C6: jitter unit conversion -/

/-- Claim C9: every `WeaponProfile` constructed by `WeaponProfile.__init__`
(as configuration loading does) has no `jitter_timing` and no
`jitter_movement` attribute; executing a compensation sequence for such a
profile raises `AttributeError` at the humanization step, before any cursor
movement is emitted; the compensation loop's `except Exception` catches it,
so nothing escapes the loop body (no crash) but that trigger press produces
no movement. -/
theorem C9_missing_jitter_attributes (name : String) (rp : List RecoilData)
    (length multiple : ℕ) (sd ss gs : ℚ) (dn : Option String)
    (pressed stopSet changeSet : ℕ → Bool) (sx sy : ℚ) (js : ℕ → ℚ) :
    (WeaponProfile_init name rp length multiple sd ss gs dn).jitter_timing = none ∧
    (WeaponProfile_init name rp length multiple sd ss gs dn).jitter_movement = none ∧
    execute_compensation_sequence (WeaponProfile_init name rp length multiple sd ss gs dn)
      (WeaponProfile_init name rp length multiple sd ss gs dn).calculated_pattern
      pressed stopSet changeSet sx sy js = ⟨[], .attributeError⟩ ∧
    compensation_loop_iteration (WeaponProfile_init name rp length multiple sd ss gs dn)
      (WeaponProfile_init name rp length multiple sd ss gs dn).calculated_pattern
      pressed stopSet changeSet sx sy js = ⟨[], false⟩ :=
  ⟨rfl, rfl, rfl, rfl⟩

/-- Claim C6, evaluated at the failing input: for a weapon whose
`jitter_timing` attribute is `3` (milliseconds) with `sleep_divider = 1` and
`sleep_suber = 0`, a point with `delay = 90` ms, and a Gaussian sample of
`3` (a typical draw from `N(0, jitter_timing/3)`), the scheduled delay
becomes `90 + 3/1000` ms — the sampled perturbation is divided by 1000 by
the `timing_jitter / 1000.0` line (commented "Convert ms to seconds"
although the whole timing pipeline is in milliseconds) — and not `90 + 3`
ms as the claim and the adjacent source comment ("99.7% within
plus-or-minus jitter_ms") require. -/
theorem C6_jitter_unit_bug :
    pointDelayTime ⟨"ak47", "AK-47", 30, 6, 1, 0, 1, [], [], some 3, some 5⟩
        ⟨0, 0, 90⟩ 3 = some (90 + 3 / 1000) ∧
    pointDelayTime ⟨"ak47", "AK-47", 30, 6, 1, 0, 1, [], [], some 3, some 5⟩
        ⟨0, 0, 90⟩ 3 ≠ some (90 + 3) := by
  constructor
  · unfold pointDelayTime
    norm_num
  · unfold pointDelayTime
    norm_num

end RCS
